import Mathlib

/-!
Verification development for the real-time session and connection layer of
the AI_INTERVIEW_MVP repository (backend WebSocket subsystem plus the React
frontend pieces that interact with it).

The backend Python sources (`api_gateway/websocket_manager.py`, `routes.py`,
`models.py`) are not part of the checked-in tree; only their design document
`backend/WEBSOCKET_IMPLEMENTATION.md` and the frontend are.  The codec,
session store, router and connection manager below are therefore modelled
from the specification's words (each such definition says so in its doc
comment).  The frontend definitions (`handleFollowUpAnswerUpdate`) are
translated directly from `frontend/src/components/InterviewFlow.jsx`.
-/

namespace AIInterview

/-! ## Base64 payload codec

Modelled from the spec: the Protocol Codec decodes `data.audio_data` as a
base64 payload (spec section 4.1, WEBSOCKET_IMPLEMENTATION.md "音频输入:
支持Base64编码的音频数据").  Bytes are `Nat`s below 256. -/

/-- Value of a base64 alphabet character (`A`-`Z`, `a`-`z`, `0`-`9`, `+`, `/`). -/
def b64val (c : Char) : Option Nat :=
  if 65 ≤ c.toNat ∧ c.toNat ≤ 90 then some (c.toNat - 65)
  else if 97 ≤ c.toNat ∧ c.toNat ≤ 122 then some (c.toNat - 97 + 26)
  else if 48 ≤ c.toNat ∧ c.toNat ≤ 57 then some (c.toNat - 48 + 52)
  else if c.toNat = 43 then some 62
  else if c.toNat = 47 then some 63
  else none

/-- Base64 alphabet character for a sextet value below 64. -/
def b64char (n : Nat) : Char :=
  if n < 26 then Char.ofNat (65 + n)
  else if n < 52 then Char.ofNat (97 + (n - 26))
  else if n < 62 then Char.ofNat (48 + (n - 52))
  else if n = 62 then '+'
  else '/'

/-- Base64 encoding of a byte list, with `=` padding for trailing groups. -/
def encodeB64 : List Nat → List Char
  | b1 :: b2 :: b3 :: rest =>
    b64char (b1 / 4) :: b64char ((b1 % 4) * 16 + b2 / 16) ::
      b64char ((b2 % 16) * 4 + b3 / 64) :: b64char (b3 % 64) :: encodeB64 rest
  | [b1, b2] =>
    [b64char (b1 / 4), b64char ((b1 % 4) * 16 + b2 / 16), b64char ((b2 % 16) * 4), '=']
  | [b1] =>
    [b64char (b1 / 4), b64char ((b1 % 4) * 16), '=', '=']
  | [] => []

/-- Base64 decoding; `none` on any malformed input (bad length, bad
character, interior padding). -/
def decodeB64 : List Char → Option (List Nat)
  | [] => some []
  | c1 :: c2 :: c3 :: c4 :: rest =>
    match b64val c1, b64val c2 with
    | some v1, some v2 =>
      if c3 = '=' then
        if c4 = '=' then
          if rest = [] then some [v1 * 4 + v2 / 16] else none
        else none
      else
        match b64val c3 with
        | some v3 =>
          if c4 = '=' then
            if rest = [] then some [v1 * 4 + v2 / 16, (v2 % 16) * 16 + v3 / 4] else none
          else
            match b64val c4, decodeB64 rest with
            | some v4, some more =>
              some ((v1 * 4 + v2 / 16) :: ((v2 % 16) * 16 + v3 / 4) ::
                ((v3 % 4) * 64 + v4) :: more)
            | _, _ => none
        | none => none
    | _, _ => none
  | _ => none

/-! ## Protocol Codec: message envelope

Modelled from the spec: §4.1 (`decode(rawFrame) -> Result<Message, DecodeError>`,
`encode(Message) -> rawFrame`) and §6 / WEBSOCKET_IMPLEMENTATION.md "消息格式"
(envelope `{type, session_id, timestamp, data}`; inbound types `connect`,
`text_input`, `audio_input`, `ping`, `disconnect`). -/

/-- A raw inbound frame: the JSON envelope with its `data` object flattened
into optional fields.  Modelled from the spec (§6 message envelope). -/
structure RawFrame where
  type : String
  session_id : Option String
  timestamp : String
  text : Option String
  context : Option String
  audio_data : Option String
  audio_format : Option String
deriving DecidableEq

/-- Decode errors of the Protocol Codec.  Modelled from the spec (§4.1). -/
inductive DecodeError where
  | unknownType
  | invalidAudio
  | unsupportedFormat
  | emptyInput
deriving DecidableEq

/-- Codec configuration: maximum decoded audio payload size and the audio
format allow-list.  Modelled from the spec (§4.1, §6, `MAX_AUDIO_SIZE`,
`SUPPORTED_AUDIO_FORMATS`). -/
structure CodecConfig where
  maxAudioBytes : Nat
  allowedFormats : List String
deriving DecidableEq

/-- A decoded inbound message.  Modelled from the spec (§3 "Inbound/Outbound
Message" and the closed inbound type set of §6). -/
inductive MessageBody where
  | connect
  | textInput (text : String) (context : Option String)
  | audioInput (audioBytes : List Nat) (format : String) (context : Option String)
  | ping
  | disconnect
deriving DecidableEq

/-- Decoded message envelope. -/
structure Message where
  body : MessageBody
  sessionId : Option String
  timestamp : String
deriving DecidableEq

/-- A string is blank when every character is whitespace: exactly when it is
empty after trimming. -/
def isBlank (s : String) : Bool := (s.data.dropWhile Char.isWhitespace).isEmpty

/-- Modelled from the spec: `decode` validates `type` against the closed set
(`UnknownType`), base64-decodes `data.audio_data` with a size cap
(`InvalidAudio`), checks `data.audio_format` against the allow-list
(`UnsupportedFormat`), and requires `data.text` to be non-empty after
trimming (`EmptyInput`); it is a pure transform (§4.1). -/
def decode (cfg : CodecConfig) (f : RawFrame) : Except DecodeError Message :=
  if f.type = "connect" then .ok ⟨.connect, f.session_id, f.timestamp⟩
  else if f.type = "ping" then .ok ⟨.ping, f.session_id, f.timestamp⟩
  else if f.type = "disconnect" then .ok ⟨.disconnect, f.session_id, f.timestamp⟩
  else if f.type = "text_input" then
    if isBlank (f.text.getD "") then .error .emptyInput
    else .ok ⟨.textInput (f.text.getD "") f.context, f.session_id, f.timestamp⟩
  else if f.type = "audio_input" then
    match decodeB64 (f.audio_data.getD "").data with
    | none => .error .invalidAudio
    | some bytes =>
      if cfg.maxAudioBytes < bytes.length then .error .invalidAudio
      else if (f.audio_format.getD "") ∈ cfg.allowedFormats then
        .ok ⟨.audioInput bytes (f.audio_format.getD "") f.context, f.session_id, f.timestamp⟩
      else .error .unsupportedFormat
  else .error .unknownType

/-- Modelled from the spec: `encode` serializes a message back into the
envelope; audio bytes are re-encoded as base64 (§4.1, §6). -/
def encode (m : Message) : RawFrame :=
  match m.body with
  | .connect => ⟨"connect", m.sessionId, m.timestamp, none, none, none, none⟩
  | .ping => ⟨"ping", m.sessionId, m.timestamp, none, none, none, none⟩
  | .disconnect => ⟨"disconnect", m.sessionId, m.timestamp, none, none, none, none⟩
  | .textInput t ctx => ⟨"text_input", m.sessionId, m.timestamp, some t, ctx, none, none⟩
  | .audioInput bs fmt ctx =>
    ⟨"audio_input", m.sessionId, m.timestamp, none, ctx,
      some (String.mk (encodeB64 bs)), some fmt⟩

/-- Semantic equivalence of the `data` payloads of two frames, relative to
the inbound `type` of the second: textual fields must agree verbatim, audio
payloads must decode to the same bytes (base64 re-encoding may differ only
in representation). -/
def dataEquiv (g f : RawFrame) : Prop :=
  if f.type = "text_input" then g.text = f.text ∧ g.context = f.context
  else if f.type = "audio_input" then
    decodeB64 (g.audio_data.getD "").data = decodeB64 (f.audio_data.getD "").data
    ∧ g.audio_format.getD "" = f.audio_format.getD "" ∧ g.context = f.context
  else True

/-! ## Session Store

Modelled from the spec: §3 "Session" data model and §4.2 Session Store
contract (`getOrCreate(id?, config)`, `get(id)`).  The store is an
association list keyed by session id (keys unique by construction:
`getOrCreate` only appends an id that is not yet present). -/

/-- Immutable-after-creation session configuration (§3). -/
structure SessionConfig where
  style : String
  candidateName : String
deriving DecidableEq

/-- One recorded utterance in a session's history (§3 `turns` entry). -/
structure Turn where
  role : String
  content : String
  producedAt : Nat
  inputModality : String
deriving DecidableEq

/-- Conversation state owned by the Session Store (§3). -/
structure Session where
  createdAt : Nat
  lastActiveAt : Nat
  turns : List Turn
  config : SessionConfig
  completed : Bool
deriving DecidableEq

/-- Association-list lookup (first binding wins). -/
def alookup {V : Type} (l : List (String × V)) (k : String) : Option V :=
  match l with
  | [] => none
  | (k', v) :: t => if k' = k then some v else alookup t k

/-- Association-list update of an existing key (no-op when absent). -/
def aset {V : Type} (l : List (String × V)) (k : String) (v : V) : List (String × V) :=
  match l with
  | [] => []
  | (k', v') :: t => if k' = k then (k', v) :: t else (k', v') :: aset t k v

abbrev SessionStore := List (String × Session)

/-- A fresh session record (§3 lifecycle: created on first contact). -/
def newSession (cfg : SessionConfig) (now : Nat) : Session :=
  { createdAt := now, lastActiveAt := now, turns := [], config := cfg, completed := false }

/-- Modelled from the spec: `get(id) -> Session | NotFound` (§4.2). -/
def SessionStore.get (store : SessionStore) (id : String) : Option Session :=
  alookup store id

/-- Modelled from the spec: `getOrCreate` with no id mints a new unique id
(`freshId`, assumed unused); with an id that exists it returns the existing
Session untouched; with an unknown id it creates the session under that id
(§4.2, §3 lifecycle).  Returns (assigned id, session, updated store). -/
def SessionStore.getOrCreate (store : SessionStore) (id? : Option String)
    (cfg : SessionConfig) (freshId : String) (now : Nat) :
    String × Session × SessionStore :=
  match id? with
  | some i =>
    match store.get i with
    | some s => (i, s, store)
    | none => (i, newSession cfg now, (i, newSession cfg now) :: store)
  | none => (freshId, newSession cfg now, (freshId, newSession cfg now) :: store)

/-! ## AI Pipeline Facade

Modelled from the spec: §4.3 capability-typed interface.  Because the
facade's internals are out of scope, a pipeline invocation's results are
supplied as an oracle value `PipelineOutcome` (one `Except` per stage). -/

/-- Typed pipeline failures (§4.3). -/
inductive PipelineError where
  | timeout
  | quotaExceeded
  | upstreamRejected (reason : String)
  | unavailable
deriving DecidableEq

/-- Result of `transcribe` (§4.3); confidence scaled to an integer percent. -/
structure TranscribeResult where
  text : String
  confidence : Nat
  durationMs : Nat
deriving DecidableEq

/-- Result of `plan` (§4.3). -/
structure PlanResult where
  strategy : String
  focusArea : String
deriving DecidableEq

/-- Result of `respond` (§4.3). -/
structure RespondResult where
  text : String
  responseType : String
  confidence : Nat
deriving DecidableEq

deriving instance DecidableEq for Except

/-- The outcome a single pipeline invocation would produce for each stage. -/
structure PipelineOutcome where
  transcribeR : Except PipelineError TranscribeResult
  planR : Except PipelineError PlanResult
  respondR : Except PipelineError RespondResult
deriving DecidableEq

/-- A content-bearing inbound message after decoding (`text_input` or
`audio_input` payload), the unit of per-session admission (§4.5). -/
inductive ContentInput where
  | text (t : String) (context : Option String)
  | audio (bytes : List Nat) (format : String) (context : Option String)
deriving DecidableEq

/-- Modelled from the spec: resolve the user text of a content-bearing
message — the text itself for `text_input`, the transcription for
`audio_input` (`transcribe` is only invoked for audio, §4.3/§4.5 step 2).
Also yields the input modality recorded on the turn. -/
def resolveUserText (m : ContentInput) (po : PipelineOutcome) :
    Except PipelineError (String × String) :=
  match m with
  | .text t _ => .ok (t, "text")
  | .audio _ _ _ =>
    match po.transcribeR with
    | .error e => .error e
    | .ok r => .ok (r.text, "audio")

/-! ## Message Router

Modelled from the spec: §4.5 algorithm steps 2–5 for a content-bearing
message, with §7's pipeline-error rule: on any stage failure the Router
reports the error **without appending a half-formed turn**, leaving the
Session unchanged for retry — so turns are committed only when every stage
succeeded. -/

/-- Modelled from the spec: process one admitted content-bearing message
against a session.  On success returns the updated session together with
the appended `user`/`assistant` turn pair and the `respond` result; on any
pipeline failure returns the error and the session is left untouched
(§4.5 steps 2–5, §7).  `completed` is set when the pipeline signals
`interview_completed` and is never cleared (§3, §4.5 step 5). -/
def routeContent (sess : Session) (m : ContentInput) (po : PipelineOutcome)
    (now : Nat) : Except PipelineError (Session × Turn × Turn × RespondResult) :=
  match resolveUserText m po with
  | .error e => .error e
  | .ok (utext, modality) =>
    match po.planR with
    | .error e => .error e
    | .ok _ =>
      match po.respondR with
      | .error e => .error e
      | .ok resp =>
        let userTurn : Turn := ⟨"user", utext, now, modality⟩
        let asstTurn : Turn := ⟨"assistant", resp.text, now, "text"⟩
        .ok ({ sess with
                turns := sess.turns ++ [userTurn, asstTurn],
                lastActiveAt := now,
                completed := sess.completed || (resp.responseType == "interview_completed") },
             userTurn, asstTurn, resp)

/-! ## Connection Manager and system step machine

Modelled from the spec: §4.4 connection registry / heartbeat supervision /
per-session serialization, §5 concurrency model.  The system is a labelled
transition function over shared state; each event is one atomic effect of
one task (admission of a decoded message to a session's slot, completion of
an in-flight pipeline call, connection open/close, ping, heartbeat sweep).
Arbitrary interleavings across sessions and connections are arbitrary event
lists. -/

/-- Connection state machine states (§4.4). -/
inductive ConnState where
  | connecting
  | opened
  | closing
  | closed
deriving DecidableEq

/-- One transport-level link (§3 "Connection"). -/
structure Conn where
  state : ConnState
  lastHeartbeatAt : Nat
  sessionId : Option String
deriving DecidableEq

/-- Default heartbeat interval in seconds
(`WEBSOCKET_HEARTBEAT_INTERVAL=30`, WEBSOCKET_IMPLEMENTATION.md; §4.4). -/
def defaultHeartbeatInterval : Nat := 30

/-- Per-session state: the owned `Session`, the serialization slot
(`inflight`, the messages whose pipeline call is running — the serialization
invariant says there is at most one), the arrival-ordered wait `queue`
(§4.5 step 1), and two history fields used to state the ordering invariant:
`admitted` (every message admitted to the slot, in admission order) and
`processed` (messages whose pipeline call has finished, each with the turn
pair it committed, or `none` when nothing was appended). -/
structure SessState where
  sess : Session
  inflight : List ContentInput
  queue : List ContentInput
  admitted : List ContentInput
  processed : List (ContentInput × Option (Turn × Turn))
deriving DecidableEq

/-- Shared mutable state of the subsystem: the Session Store plus the
connection registry (§2, §5). -/
structure SysState where
  sessions : List (String × SessState)
  conns : List (Nat × Conn)
deriving DecidableEq

/-- Outbound envelopes the machine emits (§6 outbound types, restricted to
the fields the claims mention). -/
inductive Outbound where
  | connected (sid : String)
  | aiResponse (sid : String) (userInput : String) (aiText : String) (responseType : String)
  | pong (cid : Nat)
  | errorEnvelope (sid : String) (e : PipelineError)
deriving DecidableEq

/-- Events: the atomic effects tasks can interleave (§5). -/
inductive Event where
  | create (sid : String) (cfg : SessionConfig) (now : Nat)
  | accept (sid : String) (m : ContentInput)
  | finish (sid : String) (po : PipelineOutcome) (now : Nat)
  | connOpen (cid : Nat) (sid : String) (now : Nat)
  | ping (cid : Nat) (now : Nat)
  | connClose (cid : Nat)
  | tick (now : Nat) (interval : Nat)
deriving DecidableEq

/-- Association-list lookup for `Nat` keys (connection registry). -/
def nlookup {V : Type} (l : List (Nat × V)) (k : Nat) : Option V :=
  match l with
  | [] => none
  | (k', v) :: t => if k' = k then some v else nlookup t k

/-- Association-list update for `Nat` keys (no-op when absent). -/
def nset {V : Type} (l : List (Nat × V)) (k : Nat) (v : V) : List (Nat × V) :=
  match l with
  | [] => []
  | (k', v') :: t => if k' = k then (k', v) :: t else (k', v') :: nset t k v

/-- Replace one session's state in the store. -/
def setSess (st : SysState) (sid : String) (ss : SessState) : SysState :=
  { st with sessions := aset st.sessions sid ss }

/-- Heartbeat sweep of one connection: an OPEN connection whose last `ping`
is older than the interval is force-closed (§4.4 `OPEN→CLOSED` on heartbeat
timeout). -/
def sweepConn (now interval : Nat) (c : Conn) : Conn :=
  if c.state = .opened ∧ c.lastHeartbeatAt + interval ≤ now then
    { c with state := .closed }
  else c

/-- Modelled from the spec: one atomic transition of the subsystem,
returning the new state and the outbound envelopes emitted (§4.4, §4.5, §5).

* `create`: `getOrCreate` on first contact — an existing id is untouched.
* `accept`: a fully decoded content-bearing message is admitted for its
  session: it takes the free serialization slot, or queues behind the
  in-flight message preserving arrival order (§4.5 step 1); a completed
  session accepts no further messages (§8); an unknown session id is a
  protocol error and changes nothing (§7).
* `finish`: the in-flight pipeline call for the session completes with
  outcome `po`: on success the turn pair is committed and `ai_response`
  emitted; on failure an `error` envelope is emitted and no turn appended
  (§7); either way the slot is released and the next queued message (if
  any) is admitted to the slot.  Completion of a call for a session that
  was meanwhile marked completed commits nothing.
* `connOpen`/`connClose`/`ping`: connection registry maintenance; closing a
  connection never touches any session (§3, §5 cancellation).
* `tick`: heartbeat supervision sweep at time `now` (§4.4). -/
def step (st : SysState) (e : Event) : SysState × List Outbound :=
  match e with
  | .create sid cfg now =>
    match alookup st.sessions sid with
    | some _ => (st, [])
    | none =>
      ({ st with sessions := (sid, ⟨newSession cfg now, [], [], [], []⟩) :: st.sessions }, [])
  | .accept sid m =>
    match alookup st.sessions sid with
    | none => (st, [])
    | some ss =>
      if ss.sess.completed then (st, [])
      else if ss.inflight.isEmpty then
        (setSess st sid { ss with inflight := [m], admitted := ss.admitted ++ [m] }, [])
      else
        (setSess st sid { ss with queue := ss.queue ++ [m], admitted := ss.admitted ++ [m] }, [])
  | .finish sid po now =>
    match alookup st.sessions sid with
    | none => (st, [])
    | some ss =>
      match ss.inflight with
      | [] => (st, [])
      | m :: rest =>
        let result :=
          if ss.sess.completed then (ss.sess, (m, none), ([] : List Outbound))
          else
            match routeContent ss.sess m po now with
            | .error e => (ss.sess, (m, none), [Outbound.errorEnvelope sid e])
            | .ok (s', u, a, resp) =>
              (s', (m, some (u, a)), [Outbound.aiResponse sid u.content resp.text resp.responseType])
        let next :=
          match rest, ss.queue with
          | [], n :: q => ([n], q)
          | r, q => (r, q)
        (setSess st sid
          { sess := result.1, inflight := next.1, queue := next.2,
            admitted := ss.admitted, processed := ss.processed ++ [result.2.1] },
         result.2.2)
  | .connOpen cid sid now =>
    match nlookup st.conns cid with
    | some _ => (st, [])
    | none =>
      ({ st with conns := (cid, ⟨.opened, now, some sid⟩) :: st.conns }, [.connected sid])
  | .ping cid now =>
    match nlookup st.conns cid with
    | none => (st, [])
    | some c =>
      ({ st with conns := nset st.conns cid { c with lastHeartbeatAt := now } }, [.pong cid])
  | .connClose cid =>
    ({ st with conns := st.conns.filter (fun p => p.1 ≠ cid) }, [])
  | .tick now interval =>
    ({ st with conns := st.conns.map (fun p => (p.1, sweepConn now interval p.2)) }, [])

/-- The empty initial state. -/
def initState : SysState := ⟨[], []⟩

/-- Run a list of events, discarding outputs. -/
def run (st : SysState) (evs : List Event) : SysState :=
  evs.foldl (fun s e => (step s e).1) st

/-- Connection statistics (§4.4 `stats()`, restricted to the fields the
claims mention: registered connections and active — OPEN — connections). -/
structure Stats where
  total : Nat
  active : Nat
deriving DecidableEq

/-- Connection statistics snapshot over the registry. -/
def statsOf (st : SysState) : Stats :=
  ⟨st.conns.length, (st.conns.filter (fun p => p.2.state == .opened)).length⟩

/-- The ids in `stats()`'s active set. -/
def activeConns (st : SysState) : List Nat :=
  (st.conns.filter (fun p => p.2.state == .opened)).map Prod.fst

/-! ## Frontend: `InterviewFlow.handleFollowUpAnswer`

Translated from `frontend/src/components/InterviewFlow.jsx` lines 87–99. -/

/-- One entry of the frontend `conversations` array, as built by
`handleAnswerSubmit` (`{question, answer, followUp}`); `followUpAnswer` is
absent (`none`) until `handleFollowUpAnswer` sets it. -/
structure ConversationEntry where
  question : String
  answer : String
  followUp : String
  followUpAnswer : Option String
deriving DecidableEq

/-- The runtime error JavaScript raises when a property is assigned on
`undefined`. -/
inductive JsError where
  | typeError
deriving DecidableEq

/-- The state-update function inside `handleFollowUpAnswer`:
`const updatedConversations = [...prev.conversations];`
`updatedConversations[updatedConversations.length - 1].followUpAnswer = transcript`.
Indexing at `length - 1` on an empty array yields `undefined`, and the
property assignment then throws a `TypeError`; otherwise the last entry is
mutated in place (no entry is appended). -/
def handleFollowUpAnswerUpdate (conversations : List ConversationEntry)
    (transcript : String) : Except JsError (List ConversationEntry) :=
  match conversations.getLast? with
  | none => .error .typeError
  | some last =>
    .ok (conversations.dropLast ++ [{ last with followUpAnswer := some transcript }])

/-! ## Invariants of the step machine -/

/-- The turns one finished pipeline call contributed to the session. -/
def turnsOfRecord : ContentInput × Option (Turn × Turn) → List Turn
  | (_, none) => []
  | (_, some (u, a)) => [u, a]

/-- All turns contributed by a processing history, in order. -/
def flatTurns : List (ContentInput × Option (Turn × Turn)) → List Turn
  | [] => []
  | r :: t => turnsOfRecord r ++ flatTurns t

/-- Per-session invariant: the serialization slot holds at most one message;
the queue only fills while the slot is held; the admission history splits
into finished, in-flight and queued messages in order; and the session's
turns are exactly those committed by the finished calls, in order. -/
def SessInv (ss : SessState) : Prop :=
  ss.inflight.length ≤ 1
  ∧ (ss.inflight = [] → ss.queue = [])
  ∧ ss.admitted = ss.processed.map Prod.fst ++ ss.inflight ++ ss.queue
  ∧ ss.sess.turns = flatTurns ss.processed

/-- System invariant: every registered session satisfies `SessInv`. -/
def SysInv (st : SysState) : Prop :=
  ∀ sid ss, alookup st.sessions sid = some ss → SessInv ss

/-- The turns of a session as seen from outside (empty when absent). -/
def turnsOf (st : SysState) (sid : String) : List Turn :=
  ((alookup st.sessions sid).map (fun ss => ss.sess.turns)).getD []

/-- The completed flag of a session as seen from outside. -/
def completedOf (st : SysState) (sid : String) : Bool :=
  ((alookup st.sessions sid).map (fun ss => ss.sess.completed)).getD false

/-- The admission history of a session as seen from outside. -/
def admittedOf (st : SysState) (sid : String) : List ContentInput :=
  ((alookup st.sessions sid).map (fun ss => ss.admitted)).getD []

/-! ## Example values used by the concrete witnesses -/

/-- Example session config. -/
def cfgEx : SessionConfig := ⟨"formal", "Alice"⟩

/-- Example text message. -/
def msgEx : ContentInput := .text "I led a team of five." none

/-- A pipeline outcome in which every stage succeeds. -/
def okOutcome : PipelineOutcome :=
  ⟨.ok ⟨"I led a team of five.", 92, 3500⟩,
   .ok ⟨"deep_dive", "teamwork"⟩,
   .ok ⟨"Tell me more.", "question", 85⟩⟩

/-- A pipeline outcome whose `respond` stage times out. -/
def failOutcome : PipelineOutcome :=
  ⟨.ok ⟨"I led a team of five.", 92, 3500⟩,
   .ok ⟨"deep_dive", "teamwork"⟩,
   .error .timeout⟩

/-- The user turn the example message commits. -/
def uEx : Turn := ⟨"user", "I led a team of five.", 1, "text"⟩

/-- The assistant turn the example outcome commits. -/
def aEx : Turn := ⟨"assistant", "Tell me more.", 1, "text"⟩

/-- The respond result of `okOutcome`. -/
def respEx : RespondResult := ⟨"Tell me more.", "question", 85⟩

/-- Example event trace: create a session, admit one message, finish it. -/
def evsEx : List Event :=
  [.create "S1" cfgEx 0, .accept "S1" msgEx, .finish "S1" okOutcome 1]

/-- The session state `evsEx` produces. -/
def sessEx : SessState :=
  ⟨⟨0, 1, [uEx, aEx], cfgEx, false⟩, [], [], [msgEx], [(msgEx, some (uEx, aEx))]⟩

/-- Session state with the example message in flight. -/
def sessMid : SessState := ⟨newSession cfgEx 0, [msgEx], [], [msgEx], []⟩

/-- System state with one session whose slot is held. -/
def stMid : SysState := ⟨[("S1", sessMid)], []⟩

/-- The session `okOutcome` produces from `sessMid`. -/
def sEx : Session :=
  { createdAt := 0, lastActiveAt := 1, turns := [uEx, aEx], config := cfgEx,
    completed := false }

/-- System state with one completed session. -/
def stDone : SysState :=
  ⟨[("S1", ⟨⟨0, 1, [uEx, aEx], cfgEx, true⟩, [], [], [msgEx], [(msgEx, some (uEx, aEx))]⟩)], []⟩

/-- System state with one OPEN connection bound to session `S1`. -/
def stConn : SysState :=
  ⟨[("S1", sessEx)], [(5, ⟨.opened, 0, some "S1"⟩)]⟩

/-- Example codec configuration. -/
def cfgCodec : CodecConfig := ⟨1000000, ["wav", "mp3", "m4a", "webm"]⟩

/-- Example audio frame (`"QUJD"` is base64 for the bytes of `"ABC"`). -/
def frameEx : RawFrame :=
  ⟨"audio_input", some "S1", "2024-01-01T12:00:00.000Z", none, some "ctx",
   some "QUJD", some "wav"⟩

/-- The message `frameEx` decodes to. -/
def msgDecEx : Message :=
  ⟨.audioInput [65, 66, 67] "wav" (some "ctx"), some "S1", "2024-01-01T12:00:00.000Z"⟩

/-- Example frontend conversation entry. -/
def convEx : ConversationEntry := ⟨"Q1", "A1", "F1", none⟩

/-! ## Claims -/


/-! ### Supporting lemmas -/

theorem b64val_b64char : ∀ n < 64, b64val (b64char n) = some n := by decide

theorem b64char_ne_eq : ∀ n < 64, b64char n ≠ '=' := by decide

theorem b64_roundtrip : ∀ bs : List Nat, (∀ b ∈ bs, b < 256) →
    decodeB64 (encodeB64 bs) = some bs := by
  intro bs
  induction bs using encodeB64.induct with
  | case1 b1 b2 b3 rest ih =>
    intro hb
    have h1 : b1 < 256 := hb b1 (by simp)
    have h2 : b2 < 256 := hb b2 (by simp)
    have h3 : b3 < 256 := hb b3 (by simp)
    have hrest : ∀ b ∈ rest, b < 256 := fun b hbr => hb b (by simp [hbr])
    have hv1 : b1 / 4 < 64 := by omega
    have hv2 : (b1 % 4) * 16 + b2 / 16 < 64 := by omega
    have hv3 : (b2 % 16) * 4 + b3 / 64 < 64 := by omega
    have hv4 : b3 % 64 < 64 := by omega
    rw [encodeB64, decodeB64]
    rw [b64val_b64char _ hv1, b64val_b64char _ hv2, b64val_b64char _ hv3,
      b64val_b64char _ hv4]
    simp only [b64char_ne_eq _ hv3, b64char_ne_eq _ hv4, if_false, ih hrest]
    have e1 : (b1 / 4) * 4 + ((b1 % 4) * 16 + b2 / 16) / 16 = b1 := by omega
    have e2 : (((b1 % 4) * 16 + b2 / 16) % 16) * 16 + ((b2 % 16) * 4 + b3 / 64) / 4 = b2 := by
      omega
    have e3 : (((b2 % 16) * 4 + b3 / 64) % 4) * 64 + b3 % 64 = b3 := by omega
    rw [e1, e2, e3]
  | case2 b1 b2 =>
    intro hb
    have h1 : b1 < 256 := hb b1 (by simp)
    have h2 : b2 < 256 := hb b2 (by simp)
    have hv1 : b1 / 4 < 64 := by omega
    have hv2 : (b1 % 4) * 16 + b2 / 16 < 64 := by omega
    have hv3 : (b2 % 16) * 4 < 64 := by omega
    rw [encodeB64, decodeB64]
    rw [b64val_b64char _ hv1, b64val_b64char _ hv2, b64val_b64char _ hv3]
    simp only [b64char_ne_eq _ hv3, if_false, if_true]
    simp
    omega
  | case3 b1 =>
    intro hb
    have h1 : b1 < 256 := hb b1 (by simp)
    have hv1 : b1 / 4 < 64 := by omega
    have hv2 : (b1 % 4) * 16 < 64 := by omega
    rw [encodeB64, decodeB64]
    rw [b64val_b64char _ hv1, b64val_b64char _ hv2]
    simp
    omega
  | case4 =>
    intro _
    simp [encodeB64, decodeB64]

theorem b64val_lt {c : Char} {v : Nat} (h : b64val c = some v) : v < 64 := by
  unfold b64val at h
  split at h
  · simp_all; omega
  · split at h
    · simp_all; omega
    · split at h
      · simp_all; omega
      · split at h
        · simp_all; omega
        · split at h
          · simp_all; omega
          · cases h

theorem decodeB64_lt : ∀ (cs : List Char) (bs : List Nat),
    decodeB64 cs = some bs → ∀ b ∈ bs, b < 256
  | [], bs, h => by cases h; simp
  | c1 :: c2 :: c3 :: c4 :: rest, bs, h => by
    have ih := decodeB64_lt rest
    rw [decodeB64] at h
    rcases h1 : b64val c1 with _ | v1 <;> rw [h1] at h
    · rcases h2 : b64val c2 with _ | v2 <;> rw [h2] at h <;> cases h
    rcases h2 : b64val c2 with _ | v2 <;> rw [h2] at h
    · cases h
    dsimp only at h
    have hb1 : v1 < 64 := b64val_lt h1
    have hb2 : v2 < 64 := b64val_lt h2
    by_cases hc3 : c3 = '='
    · rw [if_pos hc3] at h
      by_cases hc4 : c4 = '='
      · rw [if_pos hc4] at h
        by_cases hr : rest = []
        · rw [if_pos hr] at h
          cases h
          intro b hb
          simp at hb
          omega
        · rw [if_neg hr] at h; cases h
      · rw [if_neg hc4] at h; cases h
    · rw [if_neg hc3] at h
      rcases h3 : b64val c3 with _ | v3 <;> rw [h3] at h
      · cases h
      dsimp only at h
      have hb3 : v3 < 64 := b64val_lt h3
      by_cases hc4 : c4 = '='
      · rw [if_pos hc4] at h
        by_cases hr : rest = []
        · rw [if_pos hr] at h
          cases h
          intro b hb
          simp at hb
          rcases hb with hb | hb <;> omega
        · rw [if_neg hr] at h; cases h
      · rw [if_neg hc4] at h
        rcases h4 : b64val c4 with _ | v4 <;> rw [h4] at h
        · cases h
        have hb4 : v4 < 64 := b64val_lt h4
        rcases h5 : decodeB64 rest with _ | more <;> rw [h5] at h
        · cases h
        cases h
        intro b hb
        simp at hb
        rcases hb with hb | hb | hb | hb
        · omega
        · omega
        · omega
        · exact ih more h5 b hb
  | [c1], bs, h => by simp [decodeB64] at h
  | [c1, c2], bs, h => by simp [decodeB64] at h
  | [c1, c2, c3], bs, h => by simp [decodeB64] at h

theorem flatTurns_append (l1 l2 : List (ContentInput × Option (Turn × Turn))) :
    flatTurns (l1 ++ l2) = flatTurns l1 ++ flatTurns l2 := by
  induction l1 with
  | nil => simp [flatTurns]
  | cons r t ih => simp [flatTurns, ih]

theorem alookup_aset {V : Type} (l : List (String × V)) (k k' : String) (v : V) :
    alookup (aset l k v) k' =
      if k' = k then (alookup l k).map (fun _ => v) else alookup l k' := by
  induction l with
  | nil => simp [aset, alookup]
  | cons hd t ih =>
    obtain ⟨k0, v0⟩ := hd
    by_cases h0 : k0 = k
    · subst h0
      by_cases h1 : k' = k0
      · subst h1
        simp [aset, alookup]
      · simp [aset, alookup, h1, Ne.symm h1]
    · by_cases h1 : k0 = k'
      · subst h1
        simp [aset, alookup, h0, ih]
      · simp [aset, alookup, h0, h1, ih]

theorem routeContent_ok {sess : Session} {m : ContentInput} {po : PipelineOutcome}
    {now : Nat} {s' : Session} {u a : Turn} {resp : RespondResult}
    (h : routeContent sess m po now = .ok (s', u, a, resp)) :
    s' = { sess with turns := sess.turns ++ [u, a], lastActiveAt := now,
                     completed := sess.completed ||
                       (resp.responseType == "interview_completed") }
    ∧ u.role = "user" ∧ u.producedAt = now
    ∧ a = ⟨"assistant", resp.text, now, "text"⟩
    ∧ resolveUserText m po = .ok (u.content, u.inputModality)
    ∧ po.respondR = .ok resp := by
  unfold routeContent at h
  rcases hr : resolveUserText m po with e | p <;> rw [hr] at h
  · cases h
  obtain ⟨ut, md⟩ := p
  dsimp only at h
  rcases hp : po.planR with e | pl <;> rw [hp] at h
  · cases h
  dsimp only at h
  rcases hq : po.respondR with e | rr <;> rw [hq] at h
  · cases h
  dsimp only at h
  cases h
  exact ⟨rfl, rfl, rfl, rfl, rfl, rfl⟩

theorem sysInv_step (st : SysState) (e : Event) (h : SysInv st) :
    SysInv (step st e).1 := by
  cases e with
  | create sid cfg now =>
    simp only [SysInv] at h ⊢
    intro sid' ss' hl'
    simp only [step] at hl'
    rcases hl : alookup st.sessions sid with _ | ss <;> rw [hl] at hl'
    · dsimp only at hl'
      rw [alookup] at hl'
      by_cases hs : sid = sid'
      · rw [if_pos hs] at hl'
        cases hl'
        exact ⟨by simp, by simp, by simp, by simp [newSession, flatTurns]⟩
      · rw [if_neg hs] at hl'
        exact h sid' ss' hl'
    · exact h sid' ss' hl'
  | accept sid m =>
    simp only [SysInv] at h ⊢
    intro sid' ss' hl'
    simp only [step] at hl'
    rcases hl : alookup st.sessions sid with _ | ss <;> rw [hl] at hl'
    · exact h sid' ss' hl'
    dsimp only at hl'
    by_cases hc : ss.sess.completed = true
    · rw [if_pos hc] at hl'
      exact h sid' ss' hl'
    rw [if_neg hc] at hl'
    obtain ⟨hlen, hqe, hadm, hturns⟩ := h sid ss hl
    rcases hin : ss.inflight with _ | ⟨m0, r0⟩
    · rw [hin] at hl'
      simp only [List.isEmpty_nil, if_true] at hl'
      simp only [setSess] at hl'
      rw [alookup_aset] at hl'
      by_cases hs : sid' = sid
      · rw [if_pos hs, hl] at hl'
        cases hl'
        have hq0 : ss.queue = [] := hqe hin
        refine ⟨by simp, by simp, ?_, hturns⟩
        dsimp only
        rw [hadm, hin, hq0]
        simp
      · rw [if_neg hs] at hl'
        exact h sid' ss' hl'
    · rw [hin] at hl'
      simp only [List.isEmpty_cons, Bool.false_eq_true, if_false] at hl'
      simp only [setSess] at hl'
      rw [alookup_aset] at hl'
      by_cases hs : sid' = sid
      · rw [if_pos hs, hl] at hl'
        cases hl'
        refine ⟨?_, ?_, ?_, hturns⟩
        · dsimp only
          rw [hin] at hlen
          exact hlen
        · dsimp only
          simp
        · dsimp only
          rw [hadm, hin]
          simp
      · rw [if_neg hs] at hl'
        exact h sid' ss' hl'
  | finish sid po now =>
    simp only [SysInv] at h ⊢
    intro sid' ss' hl'
    simp only [step] at hl'
    rcases hl : alookup st.sessions sid with _ | ss <;> rw [hl] at hl'
    · exact h sid' ss' hl'
    dsimp only at hl'
    rcases hin : ss.inflight with _ | ⟨m, rest⟩ <;> rw [hin] at hl'
    · exact h sid' ss' hl'
    dsimp only at hl'
    simp only [setSess] at hl'
    rw [alookup_aset] at hl'
    by_cases hs : sid' = sid
    swap
    · rw [if_neg hs] at hl'
      exact h sid' ss' hl'
    rw [if_pos hs, hl] at hl'
    obtain ⟨hlen, hqe, hadm, hturns⟩ := h sid ss hl
    have hrest : rest = [] := by
      rw [hin] at hlen
      simpa using hlen
    subst hrest
    rcases hq2 : ss.queue with _ | ⟨n, q⟩ <;> rw [hq2] at hl' <;> dsimp only at hl'
    · by_cases hc : ss.sess.completed = true
      · rw [if_pos hc] at hl'
        cases hl'
        refine ⟨by simp, by simp, ?_, ?_⟩
        · rw [hadm, hin, hq2]; simp
        · rw [hturns, flatTurns_append]; simp [flatTurns, turnsOfRecord]
      · rw [if_neg hc] at hl'
        rcases hroute : routeContent ss.sess m po now with e | r <;> rw [hroute] at hl'
        · dsimp only at hl'
          cases hl'
          refine ⟨by simp, by simp, ?_, ?_⟩
          · rw [hadm, hin, hq2]; simp
          · rw [hturns, flatTurns_append]; simp [flatTurns, turnsOfRecord]
        · obtain ⟨s', u, a, resp⟩ := r
          dsimp only at hl'
          cases hl'
          obtain ⟨hs', _, _, _, _, _⟩ := routeContent_ok hroute
          refine ⟨by simp, by simp, ?_, ?_⟩
          · rw [hadm, hin, hq2]; simp
          · rw [hs']
            dsimp only
            rw [hturns, flatTurns_append]
            simp [flatTurns, turnsOfRecord]
    · by_cases hc : ss.sess.completed = true
      · rw [if_pos hc] at hl'
        cases hl'
        refine ⟨by simp, by simp, ?_, ?_⟩
        · rw [hadm, hin, hq2]; simp
        · rw [hturns, flatTurns_append]; simp [flatTurns, turnsOfRecord]
      · rw [if_neg hc] at hl'
        rcases hroute : routeContent ss.sess m po now with e | r <;> rw [hroute] at hl'
        · dsimp only at hl'
          cases hl'
          refine ⟨by simp, by simp, ?_, ?_⟩
          · rw [hadm, hin, hq2]; simp
          · rw [hturns, flatTurns_append]; simp [flatTurns, turnsOfRecord]
        · obtain ⟨s', u, a, resp⟩ := r
          dsimp only at hl'
          cases hl'
          obtain ⟨hs', _, _, _, _, _⟩ := routeContent_ok hroute
          refine ⟨by simp, by simp, ?_, ?_⟩
          · rw [hadm, hin, hq2]; simp
          · rw [hs']
            dsimp only
            rw [hturns, flatTurns_append]
            simp [flatTurns, turnsOfRecord]
  | connOpen cid sid now =>
    simp only [SysInv] at h ⊢
    intro sid' ss' hl'
    simp only [step] at hl'
    rcases hl : nlookup st.conns cid with _ | c <;> rw [hl] at hl' <;>
      exact h sid' ss' hl'
  | ping cid now =>
    simp only [SysInv] at h ⊢
    intro sid' ss' hl'
    simp only [step] at hl'
    rcases hl : nlookup st.conns cid with _ | c <;> rw [hl] at hl' <;>
      exact h sid' ss' hl'
  | connClose cid =>
    simp only [SysInv] at h ⊢
    intro sid' ss' hl'
    simp only [step] at hl'
    exact h sid' ss' hl'
  | tick now interval =>
    simp only [SysInv] at h ⊢
    intro sid' ss' hl'
    simp only [step] at hl'
    exact h sid' ss' hl'

theorem sysInv_run (st : SysState) (evs : List Event) (h : SysInv st) :
    SysInv (run st evs) := by
  induction evs generalizing st with
  | nil => exact h
  | cons e t ih =>
    rw [run]
    simp only [List.foldl_cons]
    exact ih _ (sysInv_step st e h)

theorem sysInv_init : SysInv initState := by
  intro sid ss hl
  cases hl

theorem turnsOf_step_prefix (st : SysState) (e : Event) (sid : String) :
    turnsOf st sid <+: turnsOf (step st e).1 sid := by
  cases e with
  | create sid0 cfg now =>
    unfold turnsOf
    simp only [step]
    rcases hl : alookup st.sessions sid0 with _ | ss
    · dsimp only
      rw [alookup]
      by_cases hs : sid0 = sid
      · subst hs
        rw [if_pos rfl, hl]
        simp
      · rw [if_neg hs]
    · exact List.prefix_rfl
  | accept sid0 m =>
    unfold turnsOf
    simp only [step]
    rcases hl : alookup st.sessions sid0 with _ | ss
    · exact List.prefix_rfl
    dsimp only
    by_cases hc : ss.sess.completed = true
    · rw [if_pos hc]
    rw [if_neg hc]
    by_cases hie : ss.inflight.isEmpty = true
    · rw [if_pos hie]
      simp only [setSess]
      rw [alookup_aset]
      by_cases hs : sid = sid0
      · subst hs
        rw [if_pos rfl, hl]
        exact List.prefix_rfl
      · rw [if_neg hs]
    · rw [if_neg hie]
      simp only [setSess]
      rw [alookup_aset]
      by_cases hs : sid = sid0
      · subst hs
        rw [if_pos rfl, hl]
        exact List.prefix_rfl
      · rw [if_neg hs]
  | finish sid0 po now =>
    unfold turnsOf
    simp only [step]
    rcases hl : alookup st.sessions sid0 with _ | ss
    · exact List.prefix_rfl
    dsimp only
    rcases hin : ss.inflight with _ | ⟨m, rest⟩
    · exact List.prefix_rfl
    dsimp only
    simp only [setSess]
    rw [alookup_aset]
    by_cases hs : sid = sid0
    swap
    · rw [if_neg hs]
    subst hs
    rw [if_pos rfl, hl]
    by_cases hc : ss.sess.completed = true
    · rw [if_pos hc]
      exact List.prefix_rfl
    rw [if_neg hc]
    rcases hroute : routeContent ss.sess m po now with e | r
    · exact List.prefix_rfl
    obtain ⟨s', u, a, resp⟩ := r
    dsimp only
    obtain ⟨hs', _, _, _, _, _⟩ := routeContent_ok hroute
    rw [hs']
    exact ⟨[u, a], rfl⟩
  | connOpen cid sid0 now =>
    simp only [step]
    rcases hl : nlookup st.conns cid with _ | c <;> exact List.prefix_rfl
  | ping cid now =>
    simp only [step]
    rcases hl : nlookup st.conns cid with _ | c <;> exact List.prefix_rfl
  | connClose cid => exact List.prefix_rfl
  | tick now interval => exact List.prefix_rfl

theorem completed_step_frozen (st : SysState) (e : Event) (sid : String)
    (h : completedOf st sid = true) :
    completedOf (step st e).1 sid = true
    ∧ turnsOf (step st e).1 sid = turnsOf st sid
    ∧ admittedOf (step st e).1 sid = admittedOf st sid := by
  rcases hl0 : alookup st.sessions sid with _ | ss0
  · unfold completedOf at h
    rw [hl0] at h
    cases h
  have hcomp : ss0.sess.completed = true := by
    unfold completedOf at h
    rw [hl0] at h
    simpa using h
  cases e with
  | create sid0 cfg now =>
    unfold completedOf turnsOf admittedOf
    simp only [step]
    rcases hl : alookup st.sessions sid0 with _ | ss
    · dsimp only
      rw [alookup]
      by_cases hs : sid0 = sid
      · subst hs
        rw [hl] at hl0
        cases hl0
      · rw [if_neg hs]
        exact ⟨h, rfl, rfl⟩
    · exact ⟨h, rfl, rfl⟩
  | accept sid0 m =>
    unfold completedOf turnsOf admittedOf
    simp only [step]
    rcases hl : alookup st.sessions sid0 with _ | ss
    · exact ⟨h, rfl, rfl⟩
    dsimp only
    by_cases hs : sid0 = sid
    · subst hs
      rw [hl] at hl0
      cases hl0
      rw [if_pos hcomp]
      exact ⟨h, rfl, rfl⟩
    · by_cases hc : ss.sess.completed = true
      · rw [if_pos hc]
        exact ⟨h, rfl, rfl⟩
      rw [if_neg hc]
      by_cases hie : ss.inflight.isEmpty = true
      · rw [if_pos hie]
        simp only [setSess]
        rw [alookup_aset, if_neg (fun hx => hs hx.symm)]
        exact ⟨h, rfl, rfl⟩
      · rw [if_neg hie]
        simp only [setSess]
        rw [alookup_aset, if_neg (fun hx => hs hx.symm)]
        exact ⟨h, rfl, rfl⟩
  | finish sid0 po now =>
    unfold completedOf turnsOf admittedOf
    simp only [step]
    rcases hl : alookup st.sessions sid0 with _ | ss
    · exact ⟨h, rfl, rfl⟩
    dsimp only
    rcases hin : ss.inflight with _ | ⟨m, rest⟩
    · exact ⟨h, rfl, rfl⟩
    dsimp only
    simp only [setSess]
    rw [alookup_aset]
    by_cases hs : sid = sid0
    swap
    · rw [if_neg hs]
      exact ⟨h, rfl, rfl⟩
    subst hs
    rw [hl] at hl0
    cases hl0
    rw [if_pos rfl, hl]
    rw [if_pos hcomp]
    exact ⟨by simpa using hcomp, rfl, rfl⟩
  | connOpen cid sid0 now =>
    unfold completedOf turnsOf admittedOf
    simp only [step]
    rcases hl : nlookup st.conns cid with _ | c <;> exact ⟨h, rfl, rfl⟩
  | ping cid now =>
    unfold completedOf turnsOf admittedOf
    simp only [step]
    rcases hl : nlookup st.conns cid with _ | c <;> exact ⟨h, rfl, rfl⟩
  | connClose cid => exact ⟨h, rfl, rfl⟩
  | tick now interval => exact ⟨h, rfl, rfl⟩

theorem nlookup_mapVal {V : Type} (l : List (Nat × V)) (g : V → V) (k : Nat) :
    nlookup (l.map (fun p => (p.1, g p.2))) k = (nlookup l k).map g := by
  induction l with
  | nil => simp [nlookup]
  | cons hd t ih =>
    obtain ⟨k0, v0⟩ := hd
    by_cases h0 : k0 = k
    · simp [nlookup, h0]
    · simp [nlookup, h0, ih]

theorem nlookup_of_mem_nodup {V : Type} (l : List (Nat × V)) (k : Nat) (v : V)
    (hnd : (l.map Prod.fst).Nodup) (hm : (k, v) ∈ l) : nlookup l k = some v := by
  induction l with
  | nil => cases hm
  | cons hd t ih =>
    obtain ⟨k0, v0⟩ := hd
    simp only [List.map_cons, List.nodup_cons] at hnd
    rcases List.mem_cons.mp hm with heq | hmt
    · cases heq
      simp [nlookup]
    · have hk : k0 ≠ k := by
        intro hk
        subst hk
        exact hnd.1 (List.mem_map.mpr ⟨(k0, v), hmt, rfl⟩)
      simp [nlookup, hk]
      exact ih hnd.2 hmt

/-! ### Claim theorems and witnesses -/

/-- C9: for every raw frame the codec accepts, re-encoding the decoded
message reproduces the frame's `type` and `session_id` and a semantically
equivalent `data` payload (text, context and format verbatim; the audio
payload decodes to the same bytes). -/
theorem C9_decode_encode_roundtrip (cfg : CodecConfig) (f : RawFrame) (m : Message)
    (h : decode cfg f = .ok m) :
    (encode m).type = f.type ∧ (encode m).session_id = f.session_id ∧
      dataEquiv (encode m) f := by
  unfold decode at h
  by_cases h1 : f.type = "connect"
  · rw [if_pos h1] at h
    cases h
    simp [encode, dataEquiv, h1]
  rw [if_neg h1] at h
  by_cases h2 : f.type = "ping"
  · rw [if_pos h2] at h
    cases h
    simp [encode, dataEquiv, h2]
  rw [if_neg h2] at h
  by_cases h3 : f.type = "disconnect"
  · rw [if_pos h3] at h
    cases h
    simp [encode, dataEquiv, h3]
  rw [if_neg h3] at h
  by_cases h4 : f.type = "text_input"
  · rw [if_pos h4] at h
    by_cases ht : isBlank (f.text.getD "") = true
    · rw [if_pos ht] at h; cases h
    · rw [if_neg ht] at h
      cases h
      rcases hft : f.text with _ | t
      · rw [hft] at ht
        exact absurd (by decide) ht
      · simp [encode, dataEquiv, h4, hft]
  rw [if_neg h4] at h
  by_cases h5 : f.type = "audio_input"
  · rw [if_pos h5] at h
    rcases hd : decodeB64 (f.audio_data.getD "").data with _ | bytes <;> rw [hd] at h
    · cases h
    dsimp only at h
    by_cases hsz : cfg.maxAudioBytes < bytes.length
    · rw [if_pos hsz] at h; cases h
    rw [if_neg hsz] at h
    by_cases hfmt : (f.audio_format.getD "") ∈ cfg.allowedFormats
    · rw [if_pos hfmt] at h
      cases h
      have hlt : ∀ b ∈ bytes, b < 256 := decodeB64_lt _ _ hd
      refine ⟨by simp [encode, h5], by simp [encode], ?_⟩
      unfold dataEquiv
      rw [if_neg (by simp [h5]), if_pos h5]
      refine ⟨?_, by simp [encode], by simp [encode]⟩
      show decodeB64 (String.mk (encodeB64 bytes)).data = _
      rw [show (String.mk (encodeB64 bytes)).data = encodeB64 bytes from rfl]
      rw [b64_roundtrip bytes hlt, hd]
    · rw [if_neg hfmt] at h; cases h
  rw [if_neg h5] at h
  cases h


theorem C9_decode_encode_roundtrip_witness :
    (encode msgDecEx).type = frameEx.type ∧
    (encode msgDecEx).session_id = frameEx.session_id ∧
    dataEquiv (encode msgDecEx) frameEx :=
  C9_decode_encode_roundtrip cfgCodec frameEx msgDecEx (by decide)

/-- C1: for every session and every interleaved event sequence across any
number of sessions, the session's turns are exactly those committed, in
admission order, by the already-finished prefix of the messages admitted to
its serialization slot (each finished message contributes its turn pair, a
failed one contributes nothing); and every step of the system only appends
to a session's turns — no turn is ever mutated or removed. -/
theorem C1_turns_admission_order_append_only :
    (∀ (evs : List Event) (sid : String) (ss : SessState),
        alookup (run initState evs).sessions sid = some ss →
        ss.sess.turns = flatTurns ss.processed ∧
        ss.processed.map Prod.fst <+: ss.admitted) ∧
    (∀ (st : SysState) (e : Event) (sid : String),
        turnsOf st sid <+: turnsOf (step st e).1 sid) := by
  constructor
  · intro evs sid ss hl
    obtain ⟨hlen, hqe, hadm, hturns⟩ := sysInv_run initState evs sysInv_init sid ss hl
    refine ⟨hturns, ⟨ss.inflight ++ ss.queue, ?_⟩⟩
    rw [hadm]
    simp [List.append_assoc]
  · exact turnsOf_step_prefix

theorem C1_turns_admission_order_append_only_witness :
    sessEx.sess.turns = flatTurns sessEx.processed ∧
    sessEx.processed.map Prod.fst <+: sessEx.admitted :=
  C1_turns_admission_order_append_only.1 evsEx "S1" sessEx (by decide)

/-- C2: at most one pipeline invocation is in flight per session id at any
reachable state; and when a second message for the same session is admitted
while the slot is held, it is queued — the in-flight set is unchanged, so
its invocation has not begun. -/
theorem C2_serialization_at_most_one_inflight :
    (∀ (evs : List Event) (sid : String) (ss : SessState),
        alookup (run initState evs).sessions sid = some ss →
        ss.inflight.length ≤ 1) ∧
    (∀ (st : SysState) (sid : String) (ss : SessState) (m : ContentInput),
        alookup st.sessions sid = some ss → ss.sess.completed = false →
        ss.inflight ≠ [] →
        ∃ ss', alookup ((step st (.accept sid m)).1).sessions sid = some ss' ∧
          ss'.inflight = ss.inflight ∧ ss'.queue = ss.queue ++ [m]) := by
  constructor
  · intro evs sid ss hl
    exact (sysInv_run initState evs sysInv_init sid ss hl).1
  · intro st sid ss m hl hc hne
    simp only [step]
    rw [hl]
    dsimp only
    rw [if_neg (by simp [hc])]
    rw [if_neg (by simpa [List.isEmpty_iff] using hne)]
    simp only [setSess]
    rw [alookup_aset, if_pos rfl, hl]
    exact ⟨_, rfl, rfl, rfl⟩

theorem C2_serialization_at_most_one_inflight_witness :
    sessEx.inflight.length ≤ 1 :=
  C2_serialization_at_most_one_inflight.1 evsEx "S1" sessEx (by decide)

/-- C3: `getOrCreate` with an id that already exists in the store returns
the existing session unchanged and does not touch the store: `turns`,
`createdAt` and `config` of the returned session are the stored ones. -/
theorem C3_getOrCreate_idempotent_reattachment (store : SessionStore) (id : String)
    (s : Session) (cfg : SessionConfig) (freshId : String) (now : Nat)
    (h : store.get id = some s) :
    store.getOrCreate (some id) cfg freshId now = (id, s, store) ∧
    (store.getOrCreate (some id) cfg freshId now).2.1.turns = s.turns ∧
    (store.getOrCreate (some id) cfg freshId now).2.1.createdAt = s.createdAt ∧
    (store.getOrCreate (some id) cfg freshId now).2.1.config = s.config := by
  unfold SessionStore.getOrCreate
  dsimp only
  rw [h]
  exact ⟨rfl, rfl, rfl, rfl⟩

theorem C3_getOrCreate_idempotent_reattachment_witness :
    SessionStore.getOrCreate [("S1", sEx)] (some "S1") cfgEx "fresh" 9 =
      ("S1", sEx, [("S1", sEx)]) :=
  (C3_getOrCreate_idempotent_reattachment [("S1", sEx)] "S1" sEx cfgEx "fresh" 9
    (by decide)).1

/-- C5: when every pipeline stage succeeds for an admitted content-bearing
message of a not-yet-completed session, the router appends exactly two
turns, first the resolved user text as a `user` turn, then the produced
text as an `assistant` turn, and sets `completed = true` iff the pipeline's
`responseType` equals `interview_completed`. -/
theorem C5_success_appends_turn_pair (sess : Session) (m : ContentInput)
    (po : PipelineOutcome) (now : Nat) (s' : Session) (u a : Turn)
    (resp : RespondResult)
    (hc : sess.completed = false)
    (h : routeContent sess m po now = .ok (s', u, a, resp)) :
    s'.turns = sess.turns ++ [u, a] ∧
    u.role = "user" ∧ resolveUserText m po = .ok (u.content, u.inputModality) ∧
    a.role = "assistant" ∧ a.content = resp.text ∧
    (s'.completed = true ↔ resp.responseType = "interview_completed") := by
  obtain ⟨hs', hu, _, ha, hres, _⟩ := routeContent_ok h
  refine ⟨by rw [hs'], hu, hres, by rw [ha], by rw [ha], ?_⟩
  rw [hs']
  simp [hc]

theorem C5_success_appends_turn_pair_witness :
    sEx.turns = (newSession cfgEx 0).turns ++ [uEx, aEx] ∧
    uEx.role = "user" ∧
    resolveUserText msgEx okOutcome = .ok (uEx.content, uEx.inputModality) ∧
    aEx.role = "assistant" ∧ aEx.content = respEx.text ∧
    (sEx.completed = true ↔ respEx.responseType = "interview_completed") :=
  C5_success_appends_turn_pair (newSession cfgEx 0) msgEx okOutcome 1 sEx uEx aEx
    respEx (by decide) (by decide)

/-- C6: when the pipeline call for the in-flight message fails, the router
emits exactly one `error` envelope, the session record is unchanged (no
half-formed turn, same `completed`/`config`/timestamps), the failed call is
recorded as committing nothing, and the serialization slot is released —
the remaining work is exactly the old wait queue. -/
theorem C6_pipeline_failure_no_half_turn (st : SysState) (sid : String)
    (ss : SessState) (m : ContentInput) (po : PipelineOutcome) (now : Nat)
    (e : PipelineError)
    (h1 : alookup st.sessions sid = some ss)
    (h2 : ss.inflight = [m])
    (h3 : ss.sess.completed = false)
    (h4 : routeContent ss.sess m po now = .error e) :
    (step st (.finish sid po now)).2 = [.errorEnvelope sid e] ∧
    ∃ ss', alookup ((step st (.finish sid po now)).1).sessions sid = some ss' ∧
      ss'.sess = ss.sess ∧
      ss'.inflight ++ ss'.queue = ss.queue ∧
      ss'.processed = ss.processed ++ [(m, none)] := by
  simp only [step]
  rw [h1]
  dsimp only
  rw [h2]
  dsimp only
  rw [if_neg (by simp [h3]), h4]
  dsimp only
  simp only [setSess]
  rw [alookup_aset, if_pos rfl, h1]
  constructor
  · trivial
  refine ⟨_, rfl, rfl, ?_, rfl⟩
  rcases ss.queue with _ | ⟨n, q⟩ <;> rfl

theorem C6_pipeline_failure_no_half_turn_witness :
    (step stMid (.finish "S1" failOutcome 1)).2 =
      [.errorEnvelope "S1" .timeout] ∧
    ∃ ss', alookup ((step stMid (.finish "S1" failOutcome 1)).1).sessions "S1" =
        some ss' ∧
      ss'.sess = sessMid.sess ∧
      ss'.inflight ++ ss'.queue = sessMid.queue ∧
      ss'.processed = sessMid.processed ++ [(msgEx, none)] :=
  C6_pipeline_failure_no_half_turn stMid "S1" sessMid msgEx failOutcome 1 .timeout
    (by decide) (by decide) (by decide) (by decide)

/-- C7: once a session's `completed` flag is true it stays true under every
event (so it is set at most once), and no event appends a turn to or admits
a message for that session any more. -/
theorem C7_completed_terminal (st : SysState) (e : Event) (sid : String)
    (h : completedOf st sid = true) :
    completedOf (step st e).1 sid = true ∧
    turnsOf (step st e).1 sid = turnsOf st sid ∧
    admittedOf (step st e).1 sid = admittedOf st sid :=
  completed_step_frozen st e sid h

theorem C7_completed_terminal_witness :
    completedOf (step stDone (.accept "S1" msgEx)).1 "S1" = true ∧
    turnsOf (step stDone (.accept "S1" msgEx)).1 "S1" = turnsOf stDone "S1" ∧
    admittedOf (step stDone (.accept "S1" msgEx)).1 "S1" = admittedOf stDone "S1" :=
  C7_completed_terminal stDone (.accept "S1" msgEx) "S1" (by decide)

/-- C4: closing (or losing) a connection never destroys or modifies any
session, a pipeline call already admitted for the session still runs to
completion afterwards and appends its user/assistant turn pair, and a later
reconnect (`connOpen` with the same session id) leaves the Session Store
untouched, so it observes the appended turns. -/
theorem C4_connection_loss_preserves_session (st : SysState) (cid cid2 : Nat)
    (sid : String) (ss : SessState) (m : ContentInput) (po : PipelineOutcome)
    (now now2 : Nat) (s' : Session) (u a : Turn) (resp : RespondResult)
    (h1 : alookup st.sessions sid = some ss)
    (h2 : ss.inflight = [m])
    (h3 : ss.sess.completed = false)
    (h4 : routeContent ss.sess m po now = .ok (s', u, a, resp)) :
    ((step st (.connClose cid)).1.sessions = st.sessions) ∧
    (∀ st' : SysState, ((step st' (.connOpen cid2 sid now2)).1).sessions = st'.sessions) ∧
    (∃ ss2,
      alookup ((step (step st (.connClose cid)).1 (.finish sid po now)).1).sessions sid
        = some ss2 ∧
      ss2.sess.turns = ss.sess.turns ++ [u, a]) := by
  refine ⟨rfl, ?_, ?_⟩
  · intro st'
    simp only [step]
    rcases hn : nlookup st'.conns cid2 with _ | c <;> rfl
  · simp only [step]
    rw [h1]
    dsimp only
    rw [h2]
    dsimp only
    rw [if_neg (by simp [h3]), h4]
    dsimp only
    simp only [setSess]
    rw [alookup_aset, if_pos rfl, h1]
    refine ⟨_, rfl, ?_⟩
    obtain ⟨hs', _, _, _, _, _⟩ := routeContent_ok h4
    rw [hs']

theorem C4_connection_loss_preserves_session_witness :
    ((step stMid (.connClose 7)).1.sessions = stMid.sessions) ∧
    (∀ st' : SysState, ((step st' (.connOpen 8 "S1" 2)).1).sessions = st'.sessions) ∧
    (∃ ss2,
      alookup ((step (step stMid (.connClose 7)).1 (.finish "S1" okOutcome 1)).1).sessions
        "S1" = some ss2 ∧
      ss2.sess.turns = sessMid.sess.turns ++ [uEx, aEx]) :=
  C4_connection_loss_preserves_session stMid 7 8 "S1" sessMid msgEx okOutcome 1 2
    sEx uEx aEx respEx (by decide) (by decide) (by decide) (by decide)

/-- C8: at a heartbeat sweep, an OPEN connection whose last heartbeat is at
least the configured interval old (it sent no `ping` in time) transitions to
CLOSED and leaves the active set reported by `stats()`, while the Session
Store — hence every session retrievable through `get` — is untouched; the
configured default interval is 30 seconds. -/
theorem C8_heartbeat_timeout_closes_connection (st : SysState) (cid : Nat)
    (c : Conn) (now interval : Nat)
    (hnd : (st.conns.map Prod.fst).Nodup)
    (h1 : nlookup st.conns cid = some c)
    (h2 : c.state = .opened)
    (h3 : c.lastHeartbeatAt + interval ≤ now) :
    defaultHeartbeatInterval = 30 ∧
    nlookup ((step st (.tick now interval)).1).conns cid =
      some { c with state := .closed } ∧
    cid ∉ activeConns (step st (.tick now interval)).1 ∧
    ((step st (.tick now interval)).1).sessions = st.sessions := by
  refine ⟨rfl, ?_, ?_, rfl⟩
  · simp only [step]
    rw [nlookup_mapVal, h1]
    rw [show (some c).map (sweepConn now interval) = some (sweepConn now interval c) from rfl]
    rw [sweepConn, if_pos ⟨h2, h3⟩]
  · intro hmem
    unfold activeConns at hmem
    simp only [step] at hmem
    rw [List.mem_map] at hmem
    obtain ⟨p, hpf, hpfst⟩ := hmem
    rw [List.mem_filter] at hpf
    obtain ⟨hpmem, hpstate⟩ := hpf
    rw [List.mem_map] at hpmem
    obtain ⟨q, hqmem, hq⟩ := hpmem
    have hq1 : q.1 = cid := by
      rw [← hq] at hpfst
      exact hpfst
    have hq2 : q.2 = c := by
      have := nlookup_of_mem_nodup st.conns cid q.2 hnd (by
        rw [← hq1]
        exact hqmem)
      rw [h1] at this
      exact (Option.some.injEq _ _).mp this.symm
    rw [← hq] at hpstate
    dsimp only at hpstate
    rw [hq2, sweepConn, if_pos ⟨h2, h3⟩] at hpstate
    simp at hpstate

theorem C8_heartbeat_timeout_closes_connection_witness :
    defaultHeartbeatInterval = 30 ∧
    nlookup ((step stConn (.tick 31 30)).1).conns 5 =
      some ⟨.closed, 0, some "S1"⟩ ∧
    5 ∉ activeConns (step stConn (.tick 31 30)).1 ∧
    ((step stConn (.tick 31 30)).1).sessions = stConn.sessions :=
  C8_heartbeat_timeout_closes_connection stConn 5 ⟨.opened, 0, some "S1"⟩ 31 30
    (by decide) (by decide) (by decide) (by decide)

/-- C10: the frontend `handleFollowUpAnswer` state updater records the
follow-up answer by mutating the last `conversations` entry in place (the
length never changes, so no new entry is appended), and on an empty
conversation history it dereferences `undefined` and throws a `TypeError`
instead of appending a new entry. -/
theorem C10_handleFollowUp_requires_nonempty :
    (∀ t : String, handleFollowUpAnswerUpdate [] t = .error .typeError) ∧
    (∀ (convs : List ConversationEntry) (t : String) (last : ConversationEntry),
      convs.getLast? = some last →
      handleFollowUpAnswerUpdate convs t =
        .ok (convs.dropLast ++ [{ last with followUpAnswer := some t }]) ∧
      (convs.dropLast ++ [{ last with followUpAnswer := some t }]).length
        = convs.length) := by
  constructor
  · intro t
    rfl
  · intro convs t last h
    have hne : convs ≠ [] := by
      intro h0
      subst h0
      cases h
    constructor
    · unfold handleFollowUpAnswerUpdate
      rw [h]
    · have hpos : 0 < convs.length := List.length_pos.mpr hne
      simp [List.length_dropLast]
      omega

theorem C10_handleFollowUp_requires_nonempty_witness :
    handleFollowUpAnswerUpdate [convEx] "extra detail" =
      .ok ([] ++ [{ convEx with followUpAnswer := some "extra detail" }]) ∧
    ([] ++ [{ convEx with followUpAnswer := some "extra detail" }]).length =
      [convEx].length :=
  C10_handleFollowUp_requires_nonempty.2 [convEx] "extra detail" convEx (by decide)

end AIInterview
